import Mathlib

/-!
Verification of the `AdminTour` component of the Front-STARS repository.

The component is a client-side list pipeline: fetch raw event records,
normalize them, filter by category / fee type / search term, paginate the
filtered list, and render either a grid or a table together with a
pagination control and a detail modal.  All list processing is pure and is
embedded here as Lean functions over `List`, with JS numbers embedded as
`Nat` (every quantity involved — lengths, page indices, page sizes — is a
non-negative integer in the component).
-/

namespace FrontStars

/-- Raw record shape returned by the remote API (`GetTourList` in the source);
all fields are strings. -/
structure GetTourList where
  category : String
  address : String
  event_name : String
  start_date : String
  end_date : String
  event_fee : String
deriving DecidableEq

/-- Normalized display record (`TourList` in the source).  `event_fee` is an
optional field (`event_fee?: string`), embedded as `Option String`. -/
structure TourList where
  category : String
  gu : String
  event_name : String
  start_date : String
  end_date : String
  is_free : Bool
  event_fee : Option String
deriving DecidableEq

/-- The normalization applied to each raw record inside `fetchEvents`:
`gu` is the raw `address`, `is_free` is
`e.event_fee === "" || e.event_fee === "무료"`, and the raw fee string is
kept in `event_fee`. -/
def normalizeEvent (e : GetTourList) : TourList :=
  { category := e.category
    gu := e.address
    event_name := e.event_name
    start_date := e.start_date
    end_date := e.end_date
    is_free := (e.event_fee == "" || e.event_fee == "무료")
    event_fee := some e.event_fee }

/-- JS `a.includes(b)`: `b` occurs as a contiguous substring of `a`. -/
def strIncludes (a b : String) : Bool := decide (b.data <:+: a.data)

/-- JS `s.toLowerCase()`.  Lean's `String.toLower` is
`String.map Char.toLower`; this is the same function written over the
character list, which the kernel can evaluate. -/
def strToLower (s : String) : String := String.mk (s.data.map Char.toLower)

/-- `matchesCategory` in the filter predicate: JS
`filterCategory ? item.category === filterCategory : true`
(the empty string is the only falsy value a `<select>` produces). -/
def matchesCategory (filterCategory : String) (item : TourList) : Bool :=
  if filterCategory ≠ "" then item.category == filterCategory else true

/-- `matchesFeeType` in the filter predicate: JS
`filterFeeType ? (filterFeeType === "free" ? item.is_free : !item.is_free) : true`. -/
def matchesFeeType (filterFeeType : String) (item : TourList) : Bool :=
  if filterFeeType ≠ "" then
    (if filterFeeType == "free" then item.is_free else !item.is_free)
  else true

/-- `matchesSearch` in the filter predicate: JS
`searchTerm ? item.event_name.toLowerCase().includes(searchTerm.toLowerCase()) : true`. -/
def matchesSearch (searchTerm : String) (item : TourList) : Bool :=
  if searchTerm ≠ "" then strIncludes (strToLower item.event_name) (strToLower searchTerm)
  else true

/-- The full filter predicate body: `matchesCategory && matchesFeeType && matchesSearch`. -/
def matchesFilter (filterCategory filterFeeType searchTerm : String)
    (item : TourList) : Bool :=
  matchesCategory filterCategory item && matchesFeeType filterFeeType item &&
    matchesSearch searchTerm item

/-- `filteredList = list.filter(...)`. -/
def filteredList (list : List TourList)
    (filterCategory filterFeeType searchTerm : String) : List TourList :=
  list.filter (matchesFilter filterCategory filterFeeType searchTerm)

/-- `totalPages = Math.ceil(filteredList.length / itemsPerPage)`; the JS
division is real division of two non-negative numbers, so the result is the
ceiling of the rational quotient. -/
def totalPages (filteredLen itemsPerPage : Nat) : Nat :=
  ⌈(filteredLen : ℚ) / (itemsPerPage : ℚ)⌉₊

/-- `paginatedList = filteredList.slice(startIndex, startIndex + itemsPerPage)`
with `startIndex = (currentPage - 1) * itemsPerPage`. -/
def paginatedList (l : List TourList) (currentPage itemsPerPage : Nat) :
    List TourList :=
  (l.drop ((currentPage - 1) * itemsPerPage)).take itemsPerPage

/-- The modal's fee description:
`selectedEvent.is_free ? "무료 행사입니다" : selectedEvent.event_fee || "상세한 요금 정보가 제공되지 않았습니다."`
(`||` falls through on the empty string and on an absent field). -/
def feeDescription (e : TourList) : String :=
  if e.is_free then "무료 행사입니다"
  else
    match e.event_fee with
    | some fee => if fee = "" then "상세한 요금 정보가 제공되지 않았습니다." else fee
    | none => "상세한 요금 정보가 제공되지 않았습니다."

/-- The `colors` record literal inside `getCategoryColor`, as a partial map:
`none` models a JS property lookup that yields `undefined`. -/
def categoryColors (category : String) : Option String :=
  if category = "음악" then some "bg-purple-100 text-purple-800 border-purple-300"
  else if category = "공연" then some "bg-pink-100 text-pink-800 border-pink-300"
  else if category = "전시" then some "bg-indigo-100 text-indigo-800 border-indigo-300"
  else if category = "축제" then some "bg-orange-100 text-orange-800 border-orange-300"
  else if category = "체험" then some "bg-green-100 text-green-800 border-green-300"
  else if category = "기타" then some "bg-gray-100 text-gray-800 border-gray-300"
  else none

/-- JS `a || b` on optional strings: `a` unless it is `undefined` or the
(falsy) empty string, otherwise `b`. -/
def jsOrElse (a b : Option String) : Option String :=
  match a with
  | some s => if s = "" then b else some s
  | none => b

/-- `getCategoryColor(category) = colors[category] || colors["기타"]`. -/
def getCategoryColor (category : String) : Option String :=
  jsOrElse (categoryColors category) (categoryColors "기타")

/-- The two values of the `viewMode` state. -/
inductive ViewMode where
  | grid
  | table
deriving DecidableEq

/-- The component state relevant to the claims: the `useState` cells of
`AdminTour` (the transient `selectedEvent` / `isMobileView` cells are not
needed by any state-transition claim). -/
structure AdminTourState where
  list : List TourList
  loading : Bool
  error : Option String
  filterCategory : String
  filterFeeType : String
  searchTerm : String
  currentPage : Nat
  itemsPerPage : Nat
  viewMode : ViewMode
deriving DecidableEq

/-- The initial state of the `useState` cells: empty list, `loading = true`,
no error, empty filters, page 1, 10 items per page, grid mode. -/
def initialState : AdminTourState :=
  { list := []
    loading := true
    error := none
    filterCategory := ""
    filterFeeType := ""
    searchTerm := ""
    currentPage := 1
    itemsPerPage := 10
    viewMode := ViewMode.grid }

/-- Outcome of the awaited `getEventList()` call: the promise either resolves
(possibly to `undefined`, modelled as `none`) or rejects (network/parse
failure). -/
inductive FetchResult where
  | success (response : Option (List GetTourList))
  | failure
deriving DecidableEq

/-- One complete run of `fetchEvents`: `setError(null)` on entry, then
`if (response && response.length > 0)` normalizes and replaces the list,
`else` only an error message is set (the list is not written), the `catch`
branch sets a generic message and clears the list, and `finally` clears the
loading flag. -/
def fetchEvents (s : AdminTourState) (r : FetchResult) : AdminTourState :=
  match r with
  | .success (some resp) =>
    if resp.length > 0 then
      { s with loading := false, error := none,
               list := resp.map normalizeEvent }
    else
      { s with loading := false,
               error := some "이벤트 데이터가 비어있거나 정의되지 않았습니다." }
  | .success none =>
      { s with loading := false,
               error := some "이벤트 데이터가 비어있거나 정의되지 않았습니다." }
  | .failure =>
      { s with loading := false,
               error := some "문화 행사 데이터를 불러오는데 실패했습니다.",
               list := [] }

/-- A change of the three filter values followed by the effect with dependency
array `[filterCategory, filterFeeType, searchTerm]`: React runs the effect
body (`setCurrentPage(1)`) after a render in which at least one dependency
differs from its previous value. -/
def applyFilterEffect (s : AdminTourState)
    (filterCategory filterFeeType searchTerm : String) : AdminTourState :=
  let s1 := { s with filterCategory := filterCategory
                     filterFeeType := filterFeeType
                     searchTerm := searchTerm }
  if filterCategory ≠ s.filterCategory ∨ filterFeeType ≠ s.filterFeeType ∨
      searchTerm ≠ s.searchTerm then
    { s1 with currentPage := 1 }
  else s1

/-- A view-mode change followed by the effect with dependency array
`[viewMode]`: grid sets 9 items per page, otherwise 10, and the page is
reset to 1. -/
def applyViewModeEffect (s : AdminTourState) (mode : ViewMode) : AdminTourState :=
  { s with viewMode := mode
           itemsPerPage := if mode = ViewMode.grid then 9 else 10
           currentPage := 1 }

/-- An entry of the `rangeWithDots` array built by `getVisiblePages`: either a
page number or the `"..."` ellipsis marker. -/
inductive PageItem where
  | page (n : Nat)
  | dots
deriving DecidableEq

/-- `delta = isMobileView ? 1 : 2`. -/
def pagDelta (isMobileView : Bool) : Nat := if isMobileView then 1 else 2

/-- Lower bound of the visible window: `Math.max(2, currentPage - delta)`.
The component only calls this with `currentPage ≥ 1`, where truncated `Nat`
subtraction agrees with JS arithmetic under the outer `max 2`. -/
def pagLo (currentPage : Nat) (isMobileView : Bool) : Nat :=
  max 2 (currentPage - pagDelta isMobileView)

/-- Upper bound of the visible window:
`Math.min(totalPages - 1, currentPage + delta)`.  Only reached when
`totalPages ≥ 2`, where `Nat` subtraction agrees with JS. -/
def pagHi (tp currentPage : Nat) (isMobileView : Bool) : Nat :=
  min (tp - 1) (currentPage + pagDelta isMobileView)

/-- `getVisiblePages` of the `Pagination` component: the window
`[lo..hi]` of pages around the current page, prefixed by page 1 (plus dots
when the window starts after page 2) and suffixed by the last page (plus dots
when the window ends before page `totalPages - 1`). -/
def getVisiblePages (tp currentPage : Nat) (isMobileView : Bool) : List PageItem :=
  let lo := pagLo currentPage isMobileView
  let hi := pagHi tp currentPage isMobileView
  (if currentPage - pagDelta isMobileView > 2 then
      [PageItem.page 1, PageItem.dots]
    else [PageItem.page 1]) ++
  (List.range' lo (hi + 1 - lo)).map PageItem.page ++
  (if currentPage + pagDelta isMobileView < tp - 1 then
      [PageItem.dots, PageItem.page tp]
    else [PageItem.page tp])

/-- The `Pagination` component: renders nothing (`null`) when
`totalPages <= 1`, otherwise the page-item row from `getVisiblePages`. -/
def paginationItems (tp currentPage : Nat) (isMobileView : Bool) :
    Option (List PageItem) :=
  if tp ≤ 1 then none else some (getVisiblePages tp currentPage isMobileView)

/-- The page numbers of a page-item row, in order, dots dropped. -/
def pageNumbers (L : List PageItem) : List Nat :=
  L.filterMap fun x =>
    match x with
    | .page n => some n
    | .dots => none

/-- One insertion into a JS `Set` (viewed as its insertion-order element
list): a repeated value is ignored, a new value goes to the end. -/
def setInsert (acc : List String) (c : String) : List String :=
  if c ∈ acc then acc else acc ++ [c]

/-- `Array.from(new Set(m))`: the distinct elements of `m` in order of first
occurrence, obtained by inserting the elements of `m` left to right into an
initially empty `Set`. -/
def dedupFirst (m : List String) : List String := m.foldl setInsert []

/-- `categories = Array.from(new Set(list.map(item => item.category)))` —
computed from the full working list, not from `filteredList`. -/
def categories (list : List TourList) : List String :=
  dedupFirst (list.map fun item => item.category)

/-- A concrete normalized record used by the witness theorems. -/
def sampleEvent : TourList :=
  { category := "음악"
    gu := "Jongno"
    event_name := "Jazz Night"
    start_date := "2024-01-01"
    end_date := "2024-01-02"
    is_free := true
    event_fee := some "" }

/-- A concrete paid normalized record used by the witness theorems. -/
def paidEvent : TourList :=
  { category := "전시"
    gu := "Gangnam"
    event_name := "Expo"
    start_date := "2024-02-01"
    end_date := "2024-02-02"
    is_free := false
    event_fee := some "1000원" }

/-- A concrete raw record used by the witness theorems. -/
def sampleRaw : GetTourList :=
  { category := "음악"
    address := "Jongno"
    event_name := "Jazz Night"
    start_date := "2024-01-01"
    end_date := "2024-01-02"
    event_fee := "" }

end FrontStars

namespace FrontStars

/-- C1: the filtered list is a subsequence of the working list; every event
in it matches the selected category when one is selected, is free when the
fee filter is `"free"`, is paid when it is `"paid"`, and contains the search
term as a case-insensitive substring when the term is non-empty; and each of
the three criteria passes every event through when its filter value is
empty. -/
theorem filteredList_sound (list : List TourList)
    (filterCategory filterFeeType searchTerm : String) (item : TourList)
    (hmem : item ∈ filteredList list filterCategory filterFeeType searchTerm) :
    (filteredList list filterCategory filterFeeType searchTerm).Sublist list ∧
    (filterCategory ≠ "" → item.category = filterCategory) ∧
    (filterFeeType = "free" → item.is_free = true) ∧
    (filterFeeType = "paid" → item.is_free = false) ∧
    (searchTerm ≠ "" → (strToLower searchTerm).data <:+: (strToLower item.event_name).data) ∧
    matchesCategory "" item = true ∧ matchesFeeType "" item = true ∧
      matchesSearch "" item = true := by
  obtain ⟨_hIn, hMatch⟩ := List.mem_filter.mp hmem
  rw [matchesFilter, Bool.and_eq_true, Bool.and_eq_true] at hMatch
  obtain ⟨⟨hCat, hFee⟩, hSearch⟩ := hMatch
  refine ⟨List.filter_sublist _, ?_, ?_, ?_, ?_, ?_, ?_, ?_⟩
  · intro hfc
    rw [matchesCategory, if_pos hfc] at hCat
    exact (beq_iff_eq).mp hCat
  · intro hff
    subst hff
    simpa [matchesFeeType] using hFee
  · intro hff
    subst hff
    simpa [matchesFeeType] using hFee
  · intro hst
    rw [matchesSearch, if_pos hst, strIncludes] at hSearch
    exact of_decide_eq_true hSearch
  · simp [matchesCategory]
  · simp [matchesFeeType]
  · simp [matchesSearch]

/-- Witness for `filteredList_sound` at a concrete list, filter combination
and member. -/
theorem filteredList_sound_witness :
    (filteredList [sampleEvent] "음악" "free" "jazz").Sublist [sampleEvent] ∧
    sampleEvent.category = "음악" ∧
    sampleEvent.is_free = true ∧
    (strToLower "jazz").data <:+: (strToLower sampleEvent.event_name).data ∧
    matchesCategory "" sampleEvent = true ∧
    matchesFeeType "" sampleEvent = true ∧
    matchesSearch "" sampleEvent = true := by
  obtain ⟨h1, h2, h3, _h4, h5, h6, h7, h8⟩ :=
    filteredList_sound [sampleEvent] "음악" "free" "jazz" sampleEvent (by decide)
  exact ⟨h1, h2 (by decide), h3 rfl, h5 (by decide), h6, h7, h8⟩

/-- `Math.ceil` of the rational quotient agrees with the closed `Nat`
formula `(len + size - 1) / size` for a positive page size. -/
theorem totalPages_closed_form (len size : Nat) (hsize : 0 < size) :
    totalPages len size = (len + size - 1) / size := by
  have hsq : (0 : ℚ) < (size : ℚ) := by exact_mod_cast hsize
  rw [← Nat.ceilDiv_eq_add_pred_div]
  apply le_antisymm
  · rw [totalPages, Nat.ceil_le, div_le_iff₀ hsq]
    have h1 : len ≤ size * (len ⌈/⌉ size) := by
      have h0 := le_smul_ceilDiv hsize (b := len)
      rwa [smul_eq_mul] at h0
    calc (len : ℚ) ≤ ((size * (len ⌈/⌉ size) : ℕ) : ℚ) := by exact_mod_cast h1
      _ = ((len ⌈/⌉ size : ℕ) : ℚ) * (size : ℚ) := by push_cast; ring
  · rw [ceilDiv_le_iff_le_mul hsize]
    have h2 := Nat.le_ceil ((len : ℚ) / (size : ℚ))
    rw [div_le_iff₀ hsq] at h2
    have h3 : (len : ℚ) ≤ ((size * totalPages len size : ℕ) : ℚ) := by
      rw [totalPages]
      push_cast
      linarith
    exact_mod_cast h3

/-- Concatenating the `n` successive windows
`[i * size, i * size + size)` of a list of length at most `n * size`
reconstructs the list. -/
theorem flatten_chunks (size : Nat) :
    ∀ (n : Nat) (l : List TourList), l.length ≤ n * size →
      ((List.range n).map fun i => (l.drop (i * size)).take size).flatten = l := by
  intro n
  induction n with
  | zero =>
    intro l hl
    rw [Nat.zero_mul] at hl
    have hnil : l = [] := List.length_eq_zero.mp (Nat.le_zero.mp hl)
    subst hnil
    simp
  | succ n ih =>
    intro l hl
    have hstep : ∀ i : Nat,
        l.drop (Nat.succ i * size) = (l.drop size).drop (i * size) := by
      intro i
      rw [List.drop_drop]
      congr 1
      rw [Nat.succ_mul, Nat.add_comm]
    rw [List.range_succ_eq_map, List.map_cons, List.map_map]
    simp only [Function.comp_def, hstep]
    rw [List.flatten_cons, Nat.zero_mul, List.drop_zero]
    rw [ih (l.drop size)
      (by rw [List.length_drop]
          exact Nat.sub_le_iff_le_add.mpr (by rwa [Nat.succ_mul] at hl))]
    exact List.take_append_drop size l

/-- C2: for a positive page size, `totalPages` is the ceiling of
`filteredLen / size` (in closed `Nat` form `(len + size - 1) / size`); the
slice of page `page` holds exactly the elements of the filtered list at
indices `(page-1)*size` up to but excluding `(page-1)*size + size`, clamped
by slice semantics; the concatenation of the slices of pages `1` through
`totalPages` is the filtered list itself; and 25 records at page size 9 give
3 pages of sizes 9, 9 and 7. -/
theorem pagination_spec (l : List TourList) (size page i : Nat)
    (hsize : 0 < size) :
    totalPages l.length size = (l.length + size - 1) / size ∧
    (paginatedList l page size)[i]? =
      (if i < size then l[(page - 1) * size + i]? else none) ∧
    ((List.range (totalPages l.length size)).map
        fun k => paginatedList l (k + 1) size).flatten = l ∧
    (l.length = 25 → size = 9 →
      totalPages l.length size = 3 ∧ (paginatedList l 1 9).length = 9 ∧
      (paginatedList l 2 9).length = 9 ∧ (paginatedList l 3 9).length = 7) := by
  have hform := totalPages_closed_form l.length size hsize
  refine ⟨hform, ?_, ?_, ?_⟩
  · by_cases hi : i < size
    · rw [if_pos hi, paginatedList, List.getElem?_take, if_pos hi,
        List.getElem?_drop]
    · rw [if_neg hi]
      apply List.getElem?_eq_none
      calc (paginatedList l page size).length ≤ size := by
            rw [paginatedList, List.length_take]
            exact Nat.min_le_left _ _
        _ ≤ i := Nat.le_of_not_lt hi
  · have hceil : totalPages l.length size = l.length ⌈/⌉ size := by
      rw [hform, Nat.ceilDiv_eq_add_pred_div]
    have hlen : l.length ≤ totalPages l.length size * size := by
      have h3 := le_smul_ceilDiv hsize (b := l.length)
      rw [smul_eq_mul] at h3
      rw [hceil, Nat.mul_comm]
      exact h3
    have hflat := flatten_chunks size (totalPages l.length size) l hlen
    simpa [paginatedList, Nat.add_sub_cancel] using hflat
  · intro h25 h9
    subst h9
    refine ⟨by rw [hform, h25], ?_, ?_, ?_⟩ <;>
      (rw [paginatedList, List.length_take, List.length_drop, h25]; omega)

/-- Witness for `pagination_spec` on a concrete 25-element list at page
size 9. -/
theorem pagination_spec_witness :
    totalPages (List.replicate 25 sampleEvent).length 9 =
      ((List.replicate 25 sampleEvent).length + 9 - 1) / 9 ∧
    (paginatedList (List.replicate 25 sampleEvent) 2 9)[3]? =
      (if 3 < 9 then (List.replicate 25 sampleEvent)[(2 - 1) * 9 + 3]?
       else none) ∧
    ((List.range (totalPages (List.replicate 25 sampleEvent).length 9)).map
        fun k => paginatedList (List.replicate 25 sampleEvent) (k + 1) 9).flatten
      = List.replicate 25 sampleEvent ∧
    totalPages (List.replicate 25 sampleEvent).length 9 = 3 ∧
    (paginatedList (List.replicate 25 sampleEvent) 3 9).length = 7 := by
  obtain ⟨h1, h2, h3, h4⟩ :=
    pagination_spec (List.replicate 25 sampleEvent) 9 2 3 (by decide)
  obtain ⟨h5, _h6, _h7, h8⟩ := h4 (by simp) rfl
  exact ⟨h1, h2, h3, h5, h8⟩

/-- C3: `is_free` of a normalized record is true exactly when the raw fee
string is empty or the literal free marker `"무료"`; in particular a raw fee
of `""` normalizes to `is_free = true` and a raw fee of `"1000원"` to
`is_free = false`. -/
theorem normalizeEvent_is_free (e : GetTourList) :
    ((normalizeEvent e).is_free = true ↔ (e.event_fee = "" ∨ e.event_fee = "무료")) ∧
    (normalizeEvent { e with event_fee := "" }).is_free = true ∧
    (normalizeEvent { e with event_fee := "1000원" }).is_free = false := by
  refine ⟨?_, by simp [normalizeEvent], by simp [normalizeEvent]⟩
  simp [normalizeEvent, Bool.or_eq_true, beq_iff_eq]

/-- C4 counterexample: starting from a state populated by an earlier
successful fetch of one record, a fetch that resolves to an empty array sets
the empty-data error message but leaves the previously fetched record in the
working list — its length is 1, not 0 as the claim requires. -/
theorem fetchEvents_empty_response_counterexample :
    (fetchEvents
        (fetchEvents initialState (FetchResult.success (some [sampleRaw])))
        (FetchResult.success (some []))).error
      = some "이벤트 데이터가 비어있거나 정의되지 않았습니다." ∧
    ¬ (fetchEvents
        (fetchEvents initialState (FetchResult.success (some [sampleRaw])))
        (FetchResult.success (some []))).list.length = 0 := by
  refine ⟨rfl, by decide⟩

/-- C4 (amended): an empty or undefined response sets the empty-data error
message and leaves the working list unchanged — so it is empty only when it
was already empty, as on the initial load — while a network/parse failure
sets the generic error message and clears the working list, for every prior
state. -/
theorem fetchEvents_error_handling (s : AdminTourState) :
    (fetchEvents s (FetchResult.success (some []))).error
        = some "이벤트 데이터가 비어있거나 정의되지 않았습니다." ∧
    (fetchEvents s (FetchResult.success (some []))).list = s.list ∧
    (fetchEvents s (FetchResult.success none)).error
        = some "이벤트 데이터가 비어있거나 정의되지 않았습니다." ∧
    (fetchEvents s (FetchResult.success none)).list = s.list ∧
    (fetchEvents s FetchResult.failure).error
        = some "문화 행사 데이터를 불러오는데 실패했습니다." ∧
    (fetchEvents s FetchResult.failure).list = [] :=
  ⟨rfl, rfl, rfl, rfl, rfl, rfl⟩

/-- C5: whenever at least one of the three filter values differs from its
previous value, the effect keyed on
`[filterCategory, filterFeeType, searchTerm]` resets the current page
to 1. -/
theorem filter_change_resets_page (s : AdminTourState)
    (filterCategory filterFeeType searchTerm : String)
    (hchange : filterCategory ≠ s.filterCategory ∨
      filterFeeType ≠ s.filterFeeType ∨ searchTerm ≠ s.searchTerm) :
    (applyFilterEffect s filterCategory filterFeeType searchTerm).currentPage
      = 1 := by
  simp [applyFilterEffect, if_pos hchange]

/-- Witness for `filter_change_resets_page` at a concrete state change. -/
theorem filter_change_resets_page_witness :
    ("축제" ≠ initialState.filterCategory ∨
      "" ≠ initialState.filterFeeType ∨ "" ≠ initialState.searchTerm) ∧
    (applyFilterEffect initialState "축제" "" "").currentPage = 1 :=
  ⟨Or.inl (by decide),
    filter_change_resets_page initialState "축제" "" "" (Or.inl (by decide))⟩

/-- C6: on a view-mode transition, grid mode sets 9 items per page, table
mode sets 10, and the current page is reset to 1 in either case. -/
theorem view_mode_change_spec (s : AdminTourState) (mode : ViewMode)
    (_hchange : mode ≠ s.viewMode) :
    (mode = ViewMode.grid → (applyViewModeEffect s mode).itemsPerPage = 9) ∧
    (mode = ViewMode.table → (applyViewModeEffect s mode).itemsPerPage = 10) ∧
    (applyViewModeEffect s mode).currentPage = 1 := by
  refine ⟨?_, ?_, rfl⟩
  · intro h
    subst h
    rfl
  · intro h
    subst h
    rfl

/-- Witness for `view_mode_change_spec` on the grid → table transition from
the initial state. -/
theorem view_mode_change_spec_witness :
    ViewMode.table ≠ initialState.viewMode ∧
    (applyViewModeEffect initialState ViewMode.table).itemsPerPage = 10 ∧
    (applyViewModeEffect initialState ViewMode.table).currentPage = 1 := by
  have h := view_mode_change_spec initialState ViewMode.table (by decide)
  exact ⟨by decide, h.2.1 rfl, h.2.2⟩

/-- C8: the modal's fee description is the literal free message when
`is_free` is true; otherwise it is the raw fee string when that is a
non-empty string, and the fallback placeholder when the fee field is absent
or empty. -/
theorem feeDescription_spec (e : TourList) (s : String) :
    (e.is_free = true → feeDescription e = "무료 행사입니다") ∧
    (e.is_free = false → e.event_fee = some s → s ≠ "" →
      feeDescription e = s) ∧
    (e.is_free = false → (e.event_fee = none ∨ e.event_fee = some "") →
      feeDescription e = "상세한 요금 정보가 제공되지 않았습니다.") := by
  refine ⟨?_, ?_, ?_⟩
  · intro h
    simp [feeDescription, h]
  · intro h hf hs
    simp [feeDescription, h, hf, hs]
  · intro h hf
    rcases hf with hf | hf <;> simp [feeDescription, h, hf]

/-- Witness for `feeDescription_spec` on a free and on a paid record. -/
theorem feeDescription_spec_witness :
    feeDescription sampleEvent = "무료 행사입니다" ∧
    feeDescription paidEvent = "1000원" := by
  refine ⟨(feeDescription_spec sampleEvent "x").1 rfl, ?_⟩
  exact (feeDescription_spec paidEvent "1000원").2.1 rfl rfl (by decide)

/-- C9: the category-to-color lookup is total — it yields a defined color
string for every category — and every category outside the six mapped keys
gets the fallback color stored under `"기타"`. -/
theorem getCategoryColor_total (category : String) :
    (getCategoryColor category).isSome = true ∧
    (category ∉ ["음악", "공연", "전시", "축제", "체험", "기타"] →
      getCategoryColor category =
        some "bg-gray-100 text-gray-800 border-gray-300") := by
  have hbase : categoryColors "기타" =
      some "bg-gray-100 text-gray-800 border-gray-300" := by decide
  constructor
  · cases hc : categoryColors category with
    | none => simp [getCategoryColor, jsOrElse, hc, hbase]
    | some s =>
        by_cases hs : s = "" <;>
          simp [getCategoryColor, jsOrElse, hc, hs, hbase]
  · intro hnot
    simp only [List.mem_cons, List.not_mem_nil, or_false, not_or] at hnot
    obtain ⟨n1, n2, n3, n4, n5, n6⟩ := hnot
    have hcc : categoryColors category = none := by
      rw [categoryColors, if_neg n1, if_neg n2, if_neg n3, if_neg n4,
        if_neg n5, if_neg n6]
    simp [getCategoryColor, jsOrElse, hcc, hbase]

/-- Witness for `getCategoryColor_total` at an unmapped category. -/
theorem getCategoryColor_total_witness :
    (getCategoryColor "스포츠").isSome = true ∧
    getCategoryColor "스포츠" =
      some "bg-gray-100 text-gray-800 border-gray-300" := by
  have h := getCategoryColor_total "스포츠"
  exact ⟨h.1, h.2 (by decide)⟩

/-- Inserting one more element into the set built so far. -/
theorem dedupFirst_append_singleton (l : List String) (c : String) :
    dedupFirst (l ++ [c]) = setInsert (dedupFirst l) c := by
  rw [dedupFirst, List.foldl_append, List.foldl_cons, List.foldl_nil]
  rfl

/-- `dedupFirst` has exactly the members of its input. -/
theorem mem_dedupFirst (m : List String) : ∀ a, a ∈ dedupFirst m ↔ a ∈ m := by
  induction m using List.reverseRecOn with
  | nil =>
    intro a
    simp [dedupFirst]
  | append_singleton l c ih =>
    intro a
    rw [dedupFirst_append_singleton, setInsert]
    by_cases hc : c ∈ dedupFirst l
    · rw [if_pos hc, List.mem_append, List.mem_singleton, ih a]
      constructor
      · exact Or.inl
      · rintro (h | rfl)
        · exact h
        · exact (ih _).mp hc
    · rw [if_neg hc]
      simp [List.mem_append, ih a]

/-- `dedupFirst` never repeats an element. -/
theorem nodup_dedupFirst (m : List String) : (dedupFirst m).Nodup := by
  induction m using List.reverseRecOn with
  | nil => simp [dedupFirst]
  | append_singleton l c ih =>
    rw [dedupFirst_append_singleton, setInsert]
    by_cases hc : c ∈ dedupFirst l
    · rwa [if_pos hc]
    · rw [if_neg hc]
      simp [List.nodup_append, ih, hc]

/-- `dedupFirst` lists elements in strictly increasing order of first
occurrence in its input. -/
theorem pairwise_indexOf_dedupFirst (m : List String) :
    List.Pairwise (fun a b => m.indexOf a < m.indexOf b) (dedupFirst m) := by
  induction m using List.reverseRecOn with
  | nil => simp [dedupFirst]
  | append_singleton l c ih =>
    rw [dedupFirst_append_singleton, setInsert]
    have hmono : List.Pairwise
        (fun a b => (l ++ [c]).indexOf a < (l ++ [c]).indexOf b)
        (dedupFirst l) := by
      refine ih.imp_of_mem ?_
      intro a b ha hb hab
      have ha2 : a ∈ l := (mem_dedupFirst l a).mp ha
      have hb2 : b ∈ l := (mem_dedupFirst l b).mp hb
      rwa [List.indexOf_append_of_mem ha2, List.indexOf_append_of_mem hb2]
    by_cases hc : c ∈ dedupFirst l
    · rwa [if_pos hc]
    · rw [if_neg hc, List.pairwise_append]
      refine ⟨hmono, by simp, ?_⟩
      intro a ha b hb
      rw [List.mem_singleton] at hb
      rw [hb]
      have ha2 : a ∈ l := (mem_dedupFirst l a).mp ha
      have hcl : c ∉ l := fun h => hc ((mem_dedupFirst l c).mpr h)
      rw [List.indexOf_append_of_mem ha2,
        List.indexOf_append_of_not_mem hcl, List.indexOf_cons_self]
      have hlt : l.indexOf a < l.length := List.indexOf_lt_length.mpr ha2
      omega

/-- C10: the category dropdown options are exactly the distinct category
values of the full working list — membership coincides with membership in
the mapped category list, no value repeats, the options appear in strictly
increasing order of first occurrence — and every option matches at least one
event of the working list. -/
theorem categories_spec (list : List TourList) (c : String) :
    (c ∈ categories list ↔ c ∈ list.map fun item => item.category) ∧
    (categories list).Nodup ∧
    List.Pairwise
      (fun a b => (list.map fun item => item.category).indexOf a <
        (list.map fun item => item.category).indexOf b)
      (categories list) ∧
    (c ∈ categories list →
      0 < list.countP fun item => item.category == c) := by
  refine ⟨mem_dedupFirst _ c, nodup_dedupFirst _,
    pairwise_indexOf_dedupFirst _, ?_⟩
  intro hmem
  have hmap : c ∈ list.map fun item => item.category :=
    (mem_dedupFirst _ c).mp hmem
  obtain ⟨item, hitem, hcat⟩ := List.mem_map.mp hmap
  exact List.countP_pos_iff.mpr ⟨item, hitem, by simp [hcat]⟩

/-- `pageNumbers` distributes over concatenation. -/
theorem pageNumbers_append (A B : List PageItem) :
    pageNumbers (A ++ B) = pageNumbers A ++ pageNumbers B := by
  simp [pageNumbers]

/-- `pageNumbers` recovers the numbers of a dots-free page row. -/
theorem pageNumbers_map_page (w : List Nat) :
    pageNumbers (w.map PageItem.page) = w := by
  induction w with
  | nil => rfl
  | cons a w ih => simpa [pageNumbers] using ih

/-- A dots-free page row contains no dots. -/
theorem count_dots_map_page (w : List Nat) :
    (w.map PageItem.page).count PageItem.dots = 0 := by
  rw [List.count_eq_zero]
  simp

/-- Variant of `pageNumbers_map_page` with the extractor composed with the
`page` constructor, the form left behind by `List.filterMap_map`. -/
theorem filterMap_comp_page (w : List Nat) :
    List.filterMap
      ((fun x =>
          match x with
          | PageItem.page n => some n
          | PageItem.dots => none) ∘ PageItem.page) w = w := by
  induction w with
  | nil => rfl
  | cons a w ih => simpa using ih

/-- The last entry of a row ending in one trailing item. -/
theorem getLast?_append_one (A : List PageItem) (x : PageItem) :
    (A ++ [x]).getLast? = some x := List.getLast?_concat A

/-- The last entry of a row ending in two trailing items. -/
theorem getLast?_append_two (A : List PageItem) (x y : PageItem) :
    (A ++ [x, y]).getLast? = some y := by
  rw [show [x, y] = [x] ++ [y] from rfl, ← List.append_assoc,
    List.getLast?_concat]

/-- C7: when `totalPages ≤ 1` the pagination control renders nothing; when
`totalPages ≥ 2` it renders the visible-page row, which starts with page 1,
ends with the last page, whose page numbers are exactly `1`, then the window
`max 2 (currentPage - delta) .. min (totalPages - 1, currentPage + delta)`
in ascending order, then the last page (with `delta` 1 on a narrow viewport
and 2 otherwise), in strictly increasing order overall, and which holds one
ellipsis entry for each side of the window not adjacent to the first or last
page — left exactly when `currentPage - delta > 2`, right exactly when
`currentPage + delta < totalPages - 1`. -/
theorem getVisiblePages_spec (tp cp : Nat) (m : Bool)
    (_hcp1 : 1 ≤ cp) (_hcptp : cp ≤ tp) :
    (tp ≤ 1 → paginationItems tp cp m = none) ∧
    (2 ≤ tp →
      paginationItems tp cp m = some (getVisiblePages tp cp m) ∧
      (getVisiblePages tp cp m).head? = some (PageItem.page 1) ∧
      (getVisiblePages tp cp m).getLast? = some (PageItem.page tp) ∧
      pageNumbers (getVisiblePages tp cp m) =
        1 :: (List.range' (pagLo cp m)
          (pagHi tp cp m + 1 - pagLo cp m) ++ [tp]) ∧
      List.Pairwise (· < ·) (pageNumbers (getVisiblePages tp cp m)) ∧
      (getVisiblePages tp cp m).count PageItem.dots =
        ((if cp - pagDelta m > 2 then 1 else 0) +
         (if cp + pagDelta m < tp - 1 then 1 else 0))) := by
  constructor
  · intro h
    rw [paginationItems, if_pos h]
  · intro htp
    have hvis : paginationItems tp cp m = some (getVisiblePages tp cp m) := by
      rw [paginationItems, if_neg (by omega)]
    have hpn : pageNumbers (getVisiblePages tp cp m) =
        1 :: (List.range' (pagLo cp m)
          (pagHi tp cp m + 1 - pagLo cp m) ++ [tp]) := by
      by_cases hc1 : cp - pagDelta m > 2 <;>
        by_cases hc2 : cp + pagDelta m < tp - 1 <;>
          simp [getVisiblePages, hc1, hc2, pageNumbers_append,
            pageNumbers_map_page, pageNumbers, filterMap_comp_page]
    refine ⟨hvis, ?_, ?_, hpn, ?_, ?_⟩
    · by_cases hc1 : cp - pagDelta m > 2 <;>
        simp [getVisiblePages, hc1]
    · by_cases hc2 : cp + pagDelta m < tp - 1
      · simp only [getVisiblePages, if_pos hc2]
        exact getLast?_append_two _ _ _
      · simp only [getVisiblePages, if_neg hc2]
        exact getLast?_append_one _ _
    · rw [hpn]
      have hlo : 2 ≤ pagLo cp m := by
        rw [pagLo]
        omega
      have hhi : pagHi tp cp m ≤ tp - 1 := by
        rw [pagHi]
        omega
      constructor
      · intro b hb
        rcases List.mem_append.mp hb with hbw | hbt
        · obtain ⟨i, hi, rfl⟩ := List.mem_range'.mp hbw
          omega
        · rw [List.mem_singleton] at hbt
          omega
      · rw [List.pairwise_append]
        refine ⟨List.pairwise_lt_range' _ _, by simp, ?_⟩
        intro a ha b hb
        rw [List.mem_singleton] at hb
        obtain ⟨i, hi, rfl⟩ := List.mem_range'.mp ha
        rw [hb]
        omega
    · by_cases hc1 : cp - pagDelta m > 2 <;>
        by_cases hc2 : cp + pagDelta m < tp - 1 <;>
          simp [getVisiblePages, hc1, hc2, List.count_append,
            count_dots_map_page]

/-- Witness for `getVisiblePages_spec` at 10 total pages, current page 5,
wide viewport (both ellipses present), plus the degenerate single-page
case. -/
theorem getVisiblePages_spec_witness :
    paginationItems 10 5 false = some (getVisiblePages 10 5 false) ∧
    (getVisiblePages 10 5 false).head? = some (PageItem.page 1) ∧
    (getVisiblePages 10 5 false).getLast? = some (PageItem.page 10) ∧
    pageNumbers (getVisiblePages 10 5 false) =
      1 :: (List.range' (pagLo 5 false)
        (pagHi 10 5 false + 1 - pagLo 5 false) ++ [10]) ∧
    List.Pairwise (· < ·) (pageNumbers (getVisiblePages 10 5 false)) ∧
    (getVisiblePages 10 5 false).count PageItem.dots =
      ((if 5 - pagDelta false > 2 then 1 else 0) +
       (if 5 + pagDelta false < 10 - 1 then 1 else 0)) ∧
    paginationItems 1 1 false = none := by
  have h := getVisiblePages_spec 10 5 false (by decide) (by decide)
  have h2 := getVisiblePages_spec 1 1 false (by decide) (by decide)
  obtain ⟨-, hb⟩ := h
  obtain ⟨hvis, hh, hl, hpn, hpw, hcount⟩ := hb (by decide)
  exact ⟨hvis, hh, hl, hpn, hpw, hcount, h2.1 (by decide)⟩

/-- Witness for `categories_spec` on a three-element working list with a
repeated category. -/
theorem categories_spec_witness :
    ("음악" ∈ categories [sampleEvent, paidEvent, sampleEvent] ↔
      "음악" ∈ ([sampleEvent, paidEvent, sampleEvent].map
        fun item => item.category)) ∧
    (categories [sampleEvent, paidEvent, sampleEvent]).Nodup ∧
    0 < [sampleEvent, paidEvent, sampleEvent].countP
      fun item => item.category == "음악" := by
  have h := categories_spec [sampleEvent, paidEvent, sampleEvent] "음악"
  exact ⟨h.1, h.2.1, h.2.2.2 (by decide)⟩

end FrontStars
